import Mathlib

/-!
Verification of the threepole core (src-tauri): persistent activity cache,
incremental-refresh gating, activity-type filter, weekly-reset boundary,
PGCR detail enrichment, and Bungie API envelope unwrapping.

Timestamps (`chrono::DateTime<Utc>`) are embedded as integers (seconds since
the Unix epoch); `chrono` date arithmetic is modelled by floor division on
those integers. The `HashMap<String, ActivityCache>` of profiles is embedded
as a function map `String → Option ActivityCache`, which carries exactly the
observable behaviour of the map (lookup / insert / retain).
-/

namespace Threepole

/-- Modelled from the spec: the `CompletedActivity` record is declared in
`src/api/responses.rs`, which is not part of the provided sources; its fields
are taken from spec §3 (instanceId, period, activityHash, modes, optional
startingPhaseIndex and wasStartedFromBeginning) and from how `cache.rs` and
`pollers/playerdata.rs` use them. -/
structure CompletedActivity where
  instance_id : String
  period : Int
  activity_hash : Nat
  modes : List Nat
  starting_phase_index : Option Nat
  activity_was_started_from_beginning : Option Bool
deriving DecidableEq, Repr

/-- `const CACHE_VERSION: u32 = 2` (cache.rs). -/
def CACHE_VERSION : Nat := 2

/-- `pub struct ActivityCache` (cache.rs). -/
structure ActivityCache where
  activities : List CompletedActivity
  last_updated : Int
  profile_id : String
  cache_version : Nat
deriving DecidableEq, Repr

/-- `pub struct CacheManager` (cache.rs); the profile `HashMap` is embedded
as a function map. -/
structure CacheManager where
  profiles : String → Option ActivityCache
  version : Nat

/-- `CacheManager::new` (cache.rs). -/
def CacheManager.new : CacheManager :=
  { profiles := fun _ => none, version := CACHE_VERSION }

/-- `CacheManager::update_cache` (cache.rs): replaces the profile's entry
wholesale with the given activity list, stamping `last_updated` (the
`Utc::now()` of the call is passed explicitly as `now`) and the schema
version. -/
def CacheManager.update_cache (m : CacheManager) (now : Int)
    (profile_id : String) (activities : List CompletedActivity) : CacheManager :=
  { profiles := fun k =>
      if k = profile_id then
        some { activities := activities
               last_updated := now
               profile_id := profile_id
               cache_version := CACHE_VERSION }
      else m.profiles k
    version := CACHE_VERSION }

/-- The identity used for de-duplication: the pair (`instance_id`, `period`). -/
def activityKey (a : CompletedActivity) : String × Int :=
  (a.instance_id, a.period)

/-- The inner loop of `CacheManager::merge_activities` (cache.rs): starting
from the cached list, push each new activity unless an activity with the same
(`instance_id`, `period`) identity is already present in the accumulated
list. -/
def addNewActivities (all_activities : List CompletedActivity)
    (new_activities : List CompletedActivity) : List CompletedActivity :=
  match new_activities with
  | [] => all_activities
  | new_activity :: rest =>
    if all_activities.any (fun existing =>
        existing.instance_id = new_activity.instance_id &&
        existing.period = new_activity.period) then
      addNewActivities all_activities rest
    else
      addNewActivities (all_activities ++ [new_activity]) rest

/-- The comparator of `all_activities.sort_by(|a, b| b.period.cmp(&a.period))`:
sort descending by `period`. -/
def periodDescLe (a b : CompletedActivity) : Bool :=
  decide (b.period ≤ a.period)

/-- `sort_by(|a, b| b.period.cmp(&a.period))` (cache.rs, playerdata.rs):
a stable sort descending by `period`, modelled by the stable `mergeSort`. -/
def sortByPeriodDesc (l : List CompletedActivity) : List CompletedActivity :=
  l.mergeSort periodDescLe

/-- `CacheManager::merge_activities` (cache.rs). -/
def CacheManager.merge_activities (m : CacheManager) (now : Int)
    (profile_id : String) (new_activities : List CompletedActivity) : CacheManager :=
  match m.profiles profile_id with
  | some existing_cache =>
    let all_activities := addNewActivities existing_cache.activities new_activities
    let sorted := sortByPeriodDesc all_activities
    { profiles := fun k =>
        if k = profile_id then
          some { activities := sorted
                 last_updated := now
                 profile_id := existing_cache.profile_id
                 cache_version := CACHE_VERSION }
        else m.profiles k
      version := CACHE_VERSION }
  | none => m.update_cache now profile_id new_activities

/-- `CacheManager::has_new_activities` (cache.rs). -/
def CacheManager.has_new_activities (m : CacheManager) (profile_id : String)
    (recent_activities : List CompletedActivity) : Bool :=
  match m.profiles profile_id with
  | some cache =>
    if cache.activities.isEmpty || recent_activities.isEmpty then
      !recent_activities.isEmpty
    else
      match cache.activities.head? with
      | some most_recent_cached =>
        recent_activities.any (fun activity =>
          decide (most_recent_cached.period < activity.period) ||
          (decide (activity.period = most_recent_cached.period) &&
           decide (activity.instance_id ≠ most_recent_cached.instance_id)))
      | none => false
  | none => !recent_activities.isEmpty

/-- The state of the persisted cache document as `CacheManager::load` (cache.rs)
observes it: the file is missing, it exists but fails to deserialize as a
`CacheManager`, or it deserializes to one. -/
inductive PersistedDoc where
  | missing
  | unparseable
  | parsed (cache : CacheManager)

/-- `CacheManager::load` (cache.rs), as a function of the persisted document
state. A missing file and a deserialization failure both yield a fresh empty
manager; a parsed manager with a stale top-level `version` is discarded for a
fresh empty one; otherwise per-profile entries whose `cache_version` differs
from `CACHE_VERSION` are dropped (`profiles.retain`). Every branch returns
`Except.ok`, mirroring the `Ok(...)` of every corresponding source branch. -/
def CacheManager.load (doc : PersistedDoc) : Except String CacheManager :=
  match doc with
  | .missing => .ok CacheManager.new
  | .unparseable => .ok CacheManager.new
  | .parsed cache =>
    if cache.version ≠ CACHE_VERSION then
      .ok CacheManager.new
    else
      .ok { cache with
              profiles := fun profile_id =>
                match cache.profiles profile_id with
                | some activity_cache =>
                  if activity_cache.cache_version ≠ CACHE_VERSION then none
                  else some activity_cache
                | none => none }

/-- `pub const RAID_ACTIVITY_MODE: usize = 4` (consts.rs). -/
def RAID_ACTIVITY_MODE : Nat := 4
/-- `pub const DUNGEON_ACTIVITY_MODE: usize = 82` (consts.rs). -/
def DUNGEON_ACTIVITY_MODE : Nat := 82
/-- `pub const STRIKE_ACTIVITY_MODE: usize = 18` (consts.rs). -/
def STRIKE_ACTIVITY_MODE : Nat := 18
/-- `pub const LOSTSECTOR_ACTIVITY_MODE: usize = 87` (consts.rs). -/
def LOSTSECTOR_ACTIVITY_MODE : Nat := 87

/-- `KNOWN_RAID_HASHES` (playerdata.rs). -/
def KNOWN_RAID_HASHES : List Nat :=
  [2122313384, 3213556450, 2693136600, 1042180643, 910380154,
   3881495763, 1441982566, 1374392663, 2381413764, 107319834,
   1541433876, 1044919065, 3817322389]

/-- `KNOWN_DUNGEON_HASHES` (playerdata.rs). -/
def KNOWN_DUNGEON_HASHES : List Nat :=
  [2032534090, 2823159265, 2582501063, 4078656646, 1077850348,
   1262462921, 313828469, 300092127, 3834447244]

/-- `is_known_raid_hash` (playerdata.rs). -/
def is_known_raid_hash (activity_hash : Nat) : Bool :=
  KNOWN_RAID_HASHES.contains activity_hash

/-- `is_known_dungeon_hash` (playerdata.rs). -/
def is_known_dungeon_hash (activity_hash : Nat) : Bool :=
  KNOWN_DUNGEON_HASHES.contains activity_hash

/-- The activity-type keep/drop predicate, as written identically at both of
its sites: the `retain` closure in `update_history` and the inline filter in
the `fetch_all_activities_concurrent` workers (playerdata.rs). -/
def keepActivity (weekly_reset : Int) (activity : CompletedActivity) : Bool :=
  let is_raid_by_mode := activity.modes.any (fun m => m = RAID_ACTIVITY_MODE)
  let is_dungeon_by_mode := activity.modes.any (fun m => m = DUNGEON_ACTIVITY_MODE)
  let is_known_raid := is_known_raid_hash activity.activity_hash
  let is_known_dungeon := is_known_dungeon_hash activity.activity_hash
  let is_raid_or_dungeon :=
    is_raid_by_mode || is_dungeon_by_mode || is_known_raid || is_known_dungeon
  let is_strike_or_lost_sector := activity.modes.any (fun m =>
    m = STRIKE_ACTIVITY_MODE || m = LOSTSECTOR_ACTIVITY_MODE)
  if is_raid_or_dungeon then
    true
  else if is_strike_or_lost_sector then
    decide (weekly_reset ≤ activity.period)
  else
    false

/-- `pub const DESTINY_DAILY_RESET_HOUR: u32 = 17` (consts.rs). -/
def DESTINY_DAILY_RESET_HOUR : Int := 17

/-- `get_destiny_weekly_reset_time` (playerdata.rs), over epoch seconds.
`date.date_naive()` is floor division by 86400 (Lean's `Int` `/` is euclidean
division, which is floor for the positive divisor); `and_hms_opt(17, 0, 0)`
adds 17 hours; `weekday().num_days_from_monday()` of civil day `d` is
`(d + 3) % 7` since day 0 (1970-01-01) is a Thursday. -/
def get_destiny_weekly_reset_time (date : Int) : Int :=
  let reset_time := (date / 86400) * 86400 + DESTINY_DAILY_RESET_HOUR * 3600
  let reset_time := if date < reset_time then reset_time - 86400 else reset_time
  let num_days_from_monday := (reset_time / 86400 + 3) % 7
  let days_since_tuesday := (num_days_from_monday + 5) % 7
  reset_time - days_since_tuesday * 86400

/-- The PGCR fields recorded by the enrichment pass (playerdata.rs):
`pgcr.starting_phase_index` and `pgcr.activity_was_started_from_beginning`. -/
structure Pgcr where
  starting_phase_index : Option Nat
  activity_was_started_from_beginning : Option Bool
deriving DecidableEq, Repr

/-- `if let Some(activity) = activities.get_mut(index)` followed by the two
field writes (playerdata.rs): modify the element at `index` if it exists,
leave the list unchanged otherwise. -/
def modifyAt (l : List CompletedActivity) (i : Nat)
    (f : CompletedActivity → CompletedActivity) : List CompletedActivity :=
  match l, i with
  | [], _ => []
  | x :: xs, 0 => f x :: xs
  | x :: xs, n + 1 => x :: modifyAt xs n f

/-- The awaiting loop of `fetch_pgcrs_for_activities` (playerdata.rs): for each
`(activity_index, instance_id)` of the fetch list, a successful
`Api::get_pgcr` (modelled by the oracle returning `some`) records the two PGCR
fields into that activity slot; a failure leaves the activity unenriched. -/
def applyPgcrResults (getPgcr : String → Option Pgcr)
    (activities : List CompletedActivity)
    (fetch_list : List (Nat × String)) : List CompletedActivity :=
  match fetch_list with
  | [] => activities
  | (activity_index, instance_id) :: rest =>
    match getPgcr instance_id with
    | some pgcr =>
      applyPgcrResults getPgcr
        (modifyAt activities activity_index (fun activity =>
          { activity with
              starting_phase_index := pgcr.starting_phase_index
              activity_was_started_from_beginning :=
                pgcr.activity_was_started_from_beginning }))
        rest
    | none => applyPgcrResults getPgcr activities rest

/-- `fetch_pgcrs_for_activities` (playerdata.rs). The network is modelled by
the oracle `getPgcr` (one `Api::get_pgcr` call per fetch-list entry). Returns
the updated activity list together with the number of detail fetches issued.
If no activity lacks `activity_was_started_from_beginning`, the function
returns immediately with zero fetches. -/
def fetch_pgcrs_for_activities (getPgcr : String → Option Pgcr)
    (activities : List CompletedActivity) : List CompletedActivity × Nat :=
  let needs_fetch := (activities.filter
    (fun a => a.activity_was_started_from_beginning.isNone)).length
  if needs_fetch = 0 then
    (activities, 0)
  else
    let fetch_list := (activities.enum.filter
      (fun p => p.2.activity_was_started_from_beginning.isNone)).map
      (fun p => (p.1, p.2.instance_id))
    (applyPgcrResults getPgcr activities fetch_list, fetch_list.length)

/-- One HTTP exchange as `make_request_with_retry` (api/requests.rs) observes
it: a transport failure of `send()`, an HTTP 503 status, a body that fails to
parse as a `BungieResponseStatus`, or a parsed envelope (`error_code`,
`message`, `throttle_seconds`, optional payload; the JSON payload `Value` is
embedded as an opaque string). -/
inductive HttpResponse where
  | transportError (msg : String)
  | status503
  | bodyUnparseable (status_code : Nat)
  | envelope (error_code : Int) (message : String) (throttle_seconds : Int)
      (response : Option String)

/-- `pub enum BungieResponseError` (api/requests.rs). -/
inductive BungieResponseError where
  | deserializeError (status_code : Nat)
  | bungieError (message : String) (error_code : Int) (throttle_seconds : Int)
  | responseMissing
  | networkError (msg : String)
deriving DecidableEq, Repr

/-- The loop of `make_request_with_retry` (api/requests.rs), from a given
`retry_count`. `responses n` is the outcome of the HTTP exchange performed
with `retry_count = n` (attempt `n`). The second component accumulates the
`tokio::time::sleep` durations in seconds: `2u64.pow(retry_count)` after each
503 that is retried. -/
def make_request_go (responses : Nat → HttpResponse) (max_retries : Nat)
    (retry_count : Nat) : Except BungieResponseError String × List Nat :=
  match responses retry_count with
  | .transportError msg => (.error (.networkError msg), [])
  | .status503 =>
    if h : retry_count < max_retries then
      ((make_request_go responses max_retries (retry_count + 1)).1,
        2 ^ (retry_count + 1) ::
          (make_request_go responses max_retries (retry_count + 1)).2)
    else
      (.error (.networkError "Bungie API unavailable (503) after retries"), [])
  | .bodyUnparseable status_code => (.error (.deserializeError status_code), [])
  | .envelope error_code message throttle_seconds response =>
    if error_code ≠ 1 then
      (.error (.bungieError message error_code throttle_seconds), [])
    else
      match response with
      | some v => (.ok v, [])
      | none => (.error .responseMissing, [])
termination_by max_retries - retry_count

/-- `make_request_with_retry(req, max_retries)` (api/requests.rs):
the loop starting with `retry_count = 0`. -/
def make_request_with_retry (responses : Nat → HttpResponse)
    (max_retries : Nat) : Except BungieResponseError String × List Nat :=
  make_request_go responses max_retries 0

/-- `make_request` (api/requests.rs): retry ceiling fixed at 3. -/
def make_request (responses : Nat → HttpResponse) :
    Except BungieResponseError String × List Nat :=
  make_request_with_retry responses 3

/-- `chrono::Duration::num_minutes`: the number of whole minutes, truncated
toward zero (Rust integer division). -/
def num_minutes (seconds : Int) : Int :=
  Int.tdiv seconds 60

/-- The staleness gate of `update_history` (playerdata.rs):
`cache_age.num_minutes() >= 5` where
`cache_age = now.signed_duration_since(cache.last_updated)`. -/
def should_check_updates (now last_updated : Int) : Bool :=
  decide (num_minutes (now - last_updated) ≥ 5)

/-- `pub const CACHE_STALE_MINUTES: i64 = 5` (consts.rs). -/
def CACHE_STALE_MINUTES : Int := 5

/-- A fully-enriched sample activity used by witnesses. -/
def enrichedActivity : CompletedActivity :=
  { instance_id := "1", period := 5, activity_hash := 0, modes := []
    starting_phase_index := some 0
    activity_was_started_from_beginning := some true }

/-- A profile entry stamped with the current schema version, for witnesses. -/
def goodEntry : ActivityCache :=
  { activities := [], last_updated := 0, profile_id := "good",
    cache_version := CACHE_VERSION }

/-- A profile entry stamped with a stale schema version, for witnesses. -/
def badEntry : ActivityCache :=
  { activities := [], last_updated := 0, profile_id := "bad",
    cache_version := 1 }

/-- A persisted manager holding one current-version entry and one
stale-version entry, for witnesses. -/
def mixedManager : CacheManager :=
  { profiles := fun k =>
      if k = "good" then some goodEntry
      else if k = "bad" then some badEntry
      else none
    version := CACHE_VERSION }

/-- A base sample activity used by concrete witnesses. -/
def actA : CompletedActivity :=
  { instance_id := "A", period := 5, activity_hash := 0, modes := [],
    starting_phase_index := none,
    activity_was_started_from_beginning := none }

/-- A sample activity sharing `actA`'s period under a different instance id. -/
def actB : CompletedActivity :=
  { actA with instance_id := "B" }

/-- A sample activity strictly newer than `actA`. -/
def actLater : CompletedActivity :=
  { actA with instance_id := "C", period := 6 }

/-- A sample strike tagged with the strike mode, completed at period 100. -/
def strikeActivity : CompletedActivity :=
  { instance_id := "s", period := 100, activity_hash := 1,
    modes := [STRIKE_ACTIVITY_MODE], starting_phase_index := none,
    activity_was_started_from_beginning := none }

/-- A sample raid tagged with the raid mode. -/
def raidActivity : CompletedActivity :=
  { instance_id := "r", period := 50, activity_hash := 2122313384,
    modes := [RAID_ACTIVITY_MODE], starting_phase_index := none,
    activity_was_started_from_beginning := none }

/-- A manager caching exactly one activity under profile "p", for witnesses. -/
def singletonManager (a : CompletedActivity) : CacheManager :=
  { profiles := fun k =>
      if k = "p" then
        some { activities := [a], last_updated := 0, profile_id := "p",
               cache_version := CACHE_VERSION }
      else none
    version := CACHE_VERSION }

/-! ### Theorems -/

/-- Closed form of the weekly-reset computation: the largest instant at or
before `t` that is congruent to 579600 modulo a week (579600 s = day 6 =
Wednesday 1970-01-07, at 17:00 UTC). -/
theorem weekly_reset_closed_form (t : Int) :
    get_destiny_weekly_reset_time t = t - (t - 579600) % 604800 := by
  simp only [get_destiny_weekly_reset_time, DESTINY_DAILY_RESET_HOUR]
  split <;> omega

/-- C6: the weekly-reset boundary is a pure function of the input time: it
falls at 17:00 UTC (`% 86400 = 61200`) on a fixed reference weekday
(`% 604800 = 579600`, a Wednesday), it is at or before the input, the input is
less than one week past it, and every timestamp within the same reset-week
(between the boundary and the boundary plus seven days) is mapped to the
identical boundary regardless of its day-of-week. -/
theorem weekly_reset_boundary (t : Int) :
    get_destiny_weekly_reset_time t % 604800 = 579600 ∧
    get_destiny_weekly_reset_time t % 86400 = 61200 ∧
    get_destiny_weekly_reset_time t ≤ t ∧
    t < get_destiny_weekly_reset_time t + 604800 ∧
    (∀ u : Int, get_destiny_weekly_reset_time t ≤ u →
      u < get_destiny_weekly_reset_time t + 604800 →
      get_destiny_weekly_reset_time u = get_destiny_weekly_reset_time t) := by
  have h := weekly_reset_closed_form t
  refine ⟨by omega, by omega, by omega, by omega, fun u h1 h2 => ?_⟩
  have hu := weekly_reset_closed_form u
  omega

/-- C6 witness: 1970-01-12 13:46:40 UTC (t = 1000000) lies in the same
reset-week as the anchor boundary 1970-01-07 17:00 UTC (t = 579600), so both
map to the same boundary. -/
theorem weekly_reset_boundary_witness :
    get_destiny_weekly_reset_time 1000000 = get_destiny_weekly_reset_time 579600 :=
  (weekly_reset_boundary 579600).2.2.2.2 1000000 (by decide) (by decide)

/-- C9: for a warm cache entry (`last_updated ≤ now`), the staleness gate of
`update_history` decides to check for updates exactly when the cache is at
least five minutes (300 seconds) old; strictly younger caches make no remote
history calls. -/
theorem staleness_gate_five_minutes (now last_updated : Int)
    (h : last_updated ≤ now) :
    should_check_updates now last_updated = true ↔
      CACHE_STALE_MINUTES * 60 ≤ now - last_updated := by
  simp only [should_check_updates, num_minutes, CACHE_STALE_MINUTES,
    decide_eq_true_eq, ge_iff_le]
  rw [Int.tdiv_eq_ediv (by omega) (by norm_num)]
  omega

/-- C9 witness: a cache last updated 4 minutes ago (240 s) is not refreshed;
one last updated exactly 5 minutes ago (300 s) is. -/
theorem staleness_gate_five_minutes_witness :
    should_check_updates 240 0 = false ∧ should_check_updates 300 0 = true := by
  constructor
  · cases hb : should_check_updates 240 0
    · rfl
    · exact absurd ((staleness_gate_five_minutes 240 0 (by decide)).mp hb)
        (by decide)
  · exact (staleness_gate_five_minutes 300 0 (by decide)).mpr (by decide)

/-- C7: detail enrichment is idempotent: on a list in which every activity
already carries `activity_was_started_from_beginning`, the pipeline returns
the list unchanged and issues zero PGCR fetches, whatever the network oracle
would answer. -/
theorem pgcr_enrichment_idempotent (getPgcr : String → Option Pgcr)
    (activities : List CompletedActivity)
    (h : ∀ a ∈ activities, a.activity_was_started_from_beginning ≠ none) :
    fetch_pgcrs_for_activities getPgcr activities = (activities, 0) := by
  have hf : activities.filter
      (fun a => a.activity_was_started_from_beginning.isNone) = [] := by
    rw [List.filter_eq_nil_iff]
    intro a ha
    simpa [Option.isNone_iff_eq_none] using h a ha
  simp [fetch_pgcrs_for_activities, hf]

/-- C7 witness: on a one-element already-enriched list, enrichment returns the
list unchanged with zero fetches, even against an oracle that would answer
every fetch. -/
theorem pgcr_enrichment_idempotent_witness :
    fetch_pgcrs_for_activities
        (fun _ => some { starting_phase_index := some 3
                         activity_was_started_from_beginning := some false })
        [enrichedActivity] =
      ([enrichedActivity], 0) :=
  pgcr_enrichment_idempotent _ [enrichedActivity] (by decide)

/-- C10: frame property of the two cache writes: `update_cache` and
`merge_activities` for `profile_id` leave every other profile's entry
untouched, and both leave an entry present for the written `profile_id` (so
the key set changes at most by inserting it). -/
theorem cache_write_frame (m : CacheManager) (now : Int) (profile_id : String)
    (acts : List CompletedActivity) (k : String) (hk : k ≠ profile_id) :
    (m.update_cache now profile_id acts).profiles k = m.profiles k ∧
    (m.merge_activities now profile_id acts).profiles k = m.profiles k ∧
    (∃ e, (m.update_cache now profile_id acts).profiles profile_id = some e) ∧
    (∃ e, (m.merge_activities now profile_id acts).profiles profile_id = some e) := by
  refine ⟨by simp [CacheManager.update_cache, hk], ?_, ?_, ?_⟩
  · unfold CacheManager.merge_activities
    cases hm : m.profiles profile_id <;>
      simp [CacheManager.update_cache, hk]
  · refine ⟨{ activities := acts, last_updated := now, profile_id := profile_id,
              cache_version := CACHE_VERSION }, ?_⟩
    simp [CacheManager.update_cache]
  · unfold CacheManager.merge_activities
    cases hm : m.profiles profile_id with
    | none =>
      refine ⟨{ activities := acts, last_updated := now, profile_id := profile_id,
                cache_version := CACHE_VERSION }, ?_⟩
      simp [CacheManager.update_cache]
    | some c =>
      refine ⟨{ activities := sortByPeriodDesc (addNewActivities c.activities acts),
                last_updated := now, profile_id := c.profile_id,
                cache_version := CACHE_VERSION }, ?_⟩
      simp

/-- C10 witness: writing profile "p" into the empty manager leaves the absent
profile "q" absent and creates an entry for "p". -/
theorem cache_write_frame_witness :
    (CacheManager.new.update_cache 0 "p" []).profiles "q" =
        CacheManager.new.profiles "q" ∧
    (CacheManager.new.merge_activities 0 "p" []).profiles "q" =
        CacheManager.new.profiles "q" ∧
    (∃ e, (CacheManager.new.update_cache 0 "p" []).profiles "p" = some e) ∧
    (∃ e, (CacheManager.new.merge_activities 0 "p" []).profiles "p" = some e) :=
  cache_write_frame CacheManager.new 0 "p" [] "q" (by decide)

/-- C3: load never returns an error: a missing file and an unparseable file
yield a fresh empty manager, a top-level version mismatch yields a fresh empty
manager, and on a matching top-level version exactly the profile entries whose
`cache_version` differs from the schema constant are removed while matching
sibling entries are kept; every case is an `Except.ok`. -/
theorem load_never_fails (doc : PersistedDoc) :
    (∃ m, CacheManager.load doc = .ok m) ∧
    CacheManager.load .missing = .ok CacheManager.new ∧
    CacheManager.load .unparseable = .ok CacheManager.new ∧
    (∀ cache, cache.version ≠ CACHE_VERSION →
      CacheManager.load (.parsed cache) = .ok CacheManager.new) ∧
    (∀ cache, cache.version = CACHE_VERSION →
      ∃ m, CacheManager.load (.parsed cache) = .ok m ∧
        (∀ profile_id ac, cache.profiles profile_id = some ac →
          (ac.cache_version ≠ CACHE_VERSION → m.profiles profile_id = none) ∧
          (ac.cache_version = CACHE_VERSION → m.profiles profile_id = some ac)) ∧
        (∀ profile_id, cache.profiles profile_id = none →
          m.profiles profile_id = none)) := by
  refine ⟨?_, rfl, rfl, ?_, ?_⟩
  · cases doc with
    | missing => exact ⟨_, rfl⟩
    | unparseable => exact ⟨_, rfl⟩
    | parsed cache =>
      simp only [CacheManager.load]
      split
      · exact ⟨_, rfl⟩
      · exact ⟨_, rfl⟩
  · intro cache h
    simp [CacheManager.load, h]
  · intro cache h
    refine ⟨{ cache with
              profiles := fun profile_id =>
                match cache.profiles profile_id with
                | some activity_cache =>
                  if activity_cache.cache_version ≠ CACHE_VERSION then none
                  else some activity_cache
                | none => none }, ?_, ?_, ?_⟩
    · simp [CacheManager.load, h]
    · intro profile_id ac hac
      constructor <;> intro hv <;> simp [hac, hv]
    · intro profile_id hn
      simp [hn]

/-- C3 witness: loading a document whose "bad" profile carries a stale
`cache_version` succeeds, drops exactly that profile, and keeps the matching
sibling "good". -/
theorem load_never_fails_witness :
    ∃ m, CacheManager.load (.parsed mixedManager) = .ok m ∧
      m.profiles "bad" = none ∧ m.profiles "good" = some goodEntry := by
  obtain ⟨m, hm, hsome, -⟩ :=
    (load_never_fails (.parsed mixedManager)).2.2.2.2 mixedManager rfl
  exact ⟨m, hm,
    (hsome "bad" badEntry (by decide)).1 (by decide),
    (hsome "good" goodEntry (by decide)).2 (by decide)⟩

/-- A retry-loop state whose attempt does not answer 503 performs no sleep. -/
theorem make_request_go_snd_nil (responses : Nat → HttpResponse)
    (max_retries retry_count : Nat)
    (h : responses retry_count ≠ .status503) :
    (make_request_go responses max_retries retry_count).2 = [] := by
  rw [make_request_go]
  cases hresp : responses retry_count with
  | transportError msg => rfl
  | status503 => exact absurd hresp h
  | bodyUnparseable sc => rfl
  | envelope ec msg ts response =>
    by_cases hec : ec = 1
    · cases response <;> simp [hec]
    · simp [hec]

/-- The sleep durations of any run of the retry loop from state `retry_count`
form the doubling sequence `2^(retry_count+1), 2^(retry_count+2), ...`, never
reaching past the retry ceiling. -/
theorem make_request_go_delays (responses : Nat → HttpResponse)
    (max_retries : Nat) :
    ∀ fuel retry_count, max_retries - retry_count ≤ fuel →
      ∃ n, (make_request_go responses max_retries retry_count).2 =
          (List.range' (retry_count + 1) n).map (fun i => 2 ^ i) ∧
        (n = 0 ∨ retry_count + n ≤ max_retries) := by
  intro fuel
  induction fuel with
  | zero =>
    intro rc hrc
    by_cases h503 : responses rc = .status503
    · rw [make_request_go, h503]
      rw [dif_neg (by omega)]
      exact ⟨0, by simp, Or.inl rfl⟩
    · rw [make_request_go_snd_nil responses max_retries rc h503]
      exact ⟨0, by simp, Or.inl rfl⟩
  | succ f ih =>
    intro rc hrc
    by_cases h503 : responses rc = .status503
    · by_cases hlt : rc < max_retries
      · rw [make_request_go, h503, dif_pos hlt]
        obtain ⟨n, hn, hle⟩ := ih (rc + 1) (by omega)
        refine ⟨n + 1, ?_, Or.inr (by omega)⟩
        simp only [hn, List.range'_succ, List.map_cons]
      · rw [make_request_go, h503, dif_neg hlt]
        exact ⟨0, by simp, Or.inl rfl⟩
    · rw [make_request_go_snd_nil responses max_retries rc h503]
      exact ⟨0, by simp, Or.inl rfl⟩

/-- If every attempt answers 503, the loop from `retry_count` retries up to
the ceiling, sleeping the doubling backoff each time, and ends in the hard
network error. -/
theorem make_request_go_all_503 (responses : Nat → HttpResponse)
    (max_retries : Nat) (h503 : ∀ i, responses i = .status503) :
    ∀ fuel retry_count, max_retries - retry_count ≤ fuel →
      make_request_go responses max_retries retry_count =
        (.error (.networkError "Bungie API unavailable (503) after retries"),
          (List.range' (retry_count + 1) (max_retries - retry_count)).map
            (fun i => 2 ^ i)) := by
  intro fuel
  induction fuel with
  | zero =>
    intro rc hrc
    rw [make_request_go, h503 rc]
    rw [dif_neg (by omega)]
    have h0 : max_retries - rc = 0 := by omega
    simp [h0]
  | succ f ih =>
    intro rc hrc
    rw [make_request_go, h503 rc]
    by_cases hlt : rc < max_retries
    · rw [dif_pos hlt]
      rw [ih (rc + 1) (by omega)]
      have hmr : max_retries - rc = (max_retries - (rc + 1)) + 1 := by omega
      rw [hmr, List.range'_succ, List.map_cons]
    · rw [dif_neg hlt]
      have h0 : max_retries - rc = 0 := by omega
      simp [h0]

/-- C8: envelope unwrapping of `make_request`. A 503 answer is retried with a
per-attempt doubling backoff, capped by the retry ceiling, after which it is
a hard network error; a first-attempt non-success envelope status is a hard
error carrying the message, code and throttle duration; a first-attempt
success envelope with a missing payload is the distinct `responseMissing`
error; and in every run the sleeps performed are the doubling prefix
`[2^1, 2^2, ...]` of length at most the ceiling. -/
theorem make_request_envelope_rules (responses : Nat → HttpResponse)
    (max_retries : Nat) :
    (∃ n, n ≤ max_retries ∧
      (make_request_with_retry responses max_retries).2 =
        (List.range' 1 n).map (fun i => 2 ^ i)) ∧
    ((∀ i, responses i = .status503) →
      make_request_with_retry responses max_retries =
        (.error (.networkError "Bungie API unavailable (503) after retries"),
          (List.range' 1 max_retries).map (fun i => 2 ^ i))) ∧
    (∀ error_code message throttle_seconds response,
      responses 0 = .envelope error_code message throttle_seconds response →
      error_code ≠ 1 →
      make_request_with_retry responses max_retries =
        (.error (.bungieError message error_code throttle_seconds), [])) ∧
    (∀ message throttle_seconds,
      responses 0 = .envelope 1 message throttle_seconds none →
      make_request_with_retry responses max_retries =
        (.error .responseMissing, [])) := by
  refine ⟨?_, ?_, ?_, ?_⟩
  · obtain ⟨n, hn, hle⟩ :=
      make_request_go_delays responses max_retries max_retries 0 (by omega)
    exact ⟨n, by omega, by simpa using hn⟩
  · intro h503
    have h := make_request_go_all_503 responses max_retries h503
      max_retries 0 (by omega)
    simpa using h
  · intro ec msg ts response h0 hec
    unfold make_request_with_retry
    rw [make_request_go, h0]
    simp [hec]
  · intro msg ts h0
    unfold make_request_with_retry
    rw [make_request_go, h0]
    simp

/-- C8 witness: with a fixed retry ceiling of 3 (`make_request`), a remote
that always answers 503 produces the hard network error after backoff sleeps
of 2, 4 and 8 seconds; a non-success envelope and a success envelope with a
missing payload are immediate hard errors of the stated kinds. -/
theorem make_request_envelope_rules_witness :
    make_request (fun _ => .status503) =
      (.error (.networkError "Bungie API unavailable (503) after retries"),
        [2, 4, 8]) ∧
    make_request (fun _ => .envelope 5 "err" 10 none) =
      (.error (.bungieError "err" 5 10), []) ∧
    make_request (fun _ => .envelope 1 "ok" 0 none) =
      (.error .responseMissing, []) := by
  refine ⟨?_, ?_, ?_⟩
  · have h := (make_request_envelope_rules (fun _ => .status503) 3).2.1
      (fun _ => rfl)
    simpa using h
  · exact (make_request_envelope_rules (fun _ => .envelope 5 "err" 10 none) 3).2.2.1
      5 "err" 10 none rfl (by decide)
  · exact (make_request_envelope_rules (fun _ => .envelope 1 "ok" 0 none) 3).2.2.2
      "ok" 0 rfl

/-- C5: the activity-type filter is a pure per-element predicate: an activity
is retained iff it carries a raid or dungeon mode tag, or its hash is in the
static raid/dungeon allow-lists, or it carries a strike or lost-sector mode
tag and its period is at or after the weekly-reset boundary; and filtering any
permutation of a list yields the same retained subset. -/
theorem activity_filter_correct :
    (∀ (weekly_reset : Int) (a : CompletedActivity),
      keepActivity weekly_reset a = true ↔
        (RAID_ACTIVITY_MODE ∈ a.modes ∨ DUNGEON_ACTIVITY_MODE ∈ a.modes ∨
         a.activity_hash ∈ KNOWN_RAID_HASHES ∨
         a.activity_hash ∈ KNOWN_DUNGEON_HASHES ∨
         ((STRIKE_ACTIVITY_MODE ∈ a.modes ∨ LOSTSECTOR_ACTIVITY_MODE ∈ a.modes) ∧
          weekly_reset ≤ a.period))) ∧
    (∀ (weekly_reset : Int) (l l2 : List CompletedActivity), l.Perm l2 →
      (l.filter (keepActivity weekly_reset)).Perm
        (l2.filter (keepActivity weekly_reset))) := by
  constructor
  · intro weekly_reset a
    simp only [keepActivity, is_known_raid_hash, is_known_dungeon_hash,
      List.any_eq_true, Bool.or_eq_true, decide_eq_true_eq]
    split_ifs with h1 h2
    · simp_all
      tauto
    · simp_all
      intro _hwr
      obtain ⟨x, hx, hxe | hxe⟩ := h2 <;> subst hxe
      · exact Or.inl hx
      · exact Or.inr hx
    · simp_all
      rintro (hx | hx)
      · exact absurd rfl (h2 _ hx).1
      · exact absurd rfl (h2 _ hx).2
  · intro weekly_reset l l2 hperm
    exact hperm.filter _

/-- C5 witness: filtering the two-element list of a strike (period 100) and a
raid in either order yields permutation-equal retained subsets. -/
theorem activity_filter_correct_witness :
    ([strikeActivity, raidActivity].filter (keepActivity 0)).Perm
      ([raidActivity, strikeActivity].filter (keepActivity 0)) :=
  activity_filter_correct.2 0 [strikeActivity, raidActivity]
    [raidActivity, strikeActivity] (List.Perm.swap raidActivity strikeActivity [])

/-- C2: `has_new_activities` returns true iff the fetched first page is
non-empty while the cache entry is absent or empty, and otherwise (cached list
`newest :: rest`) iff some recent activity has a period strictly above the
cached newest record's period, or an equal period under a different instance
id. -/
theorem has_new_activities_correct (m : CacheManager) (profile_id : String)
    (recent : List CompletedActivity) :
    (m.profiles profile_id = none →
      (m.has_new_activities profile_id recent = true ↔ recent ≠ [])) ∧
    (∀ c, m.profiles profile_id = some c → c.activities = [] →
      (m.has_new_activities profile_id recent = true ↔ recent ≠ [])) ∧
    (∀ c newest rest, m.profiles profile_id = some c →
      c.activities = newest :: rest →
      (m.has_new_activities profile_id recent = true ↔
        ∃ a ∈ recent, newest.period < a.period ∨
          (a.period = newest.period ∧ a.instance_id ≠ newest.instance_id))) := by
  refine ⟨?_, ?_, ?_⟩
  · intro h
    simp [CacheManager.has_new_activities, h]
  · intro c hc hact
    simp [CacheManager.has_new_activities, hc, hact]
  · intro c newest rest hc hact
    cases recent with
    | nil => simp [CacheManager.has_new_activities, hc, hact]
    | cons r rs =>
      simp [CacheManager.has_new_activities, hc, hact, List.any_eq_true]

/-- C2 witness: cached `[actA (id "A", period 5)]` against recent `[actA]`
reports no new activity; against recent `[actB (id "B", period 5)]` (equal
period, different instance id) it reports new activity. -/
theorem has_new_activities_correct_witness :
    (singletonManager actA).has_new_activities "p" [actA] = false ∧
    (singletonManager actA).has_new_activities "p" [actB] = true := by
  have h1 := (has_new_activities_correct (singletonManager actA) "p" [actA]).2.2
    { activities := [actA], last_updated := 0, profile_id := "p",
      cache_version := CACHE_VERSION } actA [] (by decide) rfl
  have h2 := (has_new_activities_correct (singletonManager actA) "p" [actB]).2.2
    { activities := [actA], last_updated := 0, profile_id := "p",
      cache_version := CACHE_VERSION } actA [] (by decide) rfl
  constructor
  · cases hb : (singletonManager actA).has_new_activities "p" [actA]
    · rfl
    · exact absurd (h1.mp hb) (by decide)
  · exact h2.mpr ⟨actB, by decide, Or.inr ⟨rfl, by decide⟩⟩

/-- C4 (evaluation at the failing input): `update_cache` stores the caller's
list verbatim without sorting. Writing the ascending list `[actA (period 5),
actLater (period 6)]` leaves the stored activity list not sorted descending
by `period`, although `has_new_activities` reads `activities[0]` as the
newest cached record and `merge_activities` does re-sort. -/
theorem update_cache_stores_unsorted :
    ∃ entry,
      (CacheManager.new.update_cache 0 "p" [actA, actLater]).profiles "p" =
          some entry ∧
      entry.activities = [actA, actLater] ∧
      ¬ entry.activities.Pairwise (fun x y => y.period ≤ x.period) := by
  refine ⟨{ activities := [actA, actLater], last_updated := 0,
            profile_id := "p", cache_version := CACHE_VERSION }, ?_, rfl, ?_⟩
  · simp [CacheManager.new, CacheManager.update_cache]
  · decide

/-- The dedup test of `merge_activities` holds of `b` against accumulated
list `A` iff some element of `A` carries `b`'s (`instance_id`, `period`)
identity key. -/
theorem any_key_eq (A : List CompletedActivity) (b : CompletedActivity) :
    (A.any (fun existing =>
        existing.instance_id = b.instance_id &&
        existing.period = b.period)) = true ↔
      ∃ e ∈ A, activityKey e = activityKey b := by
  simp [List.any_eq_true, activityKey, Prod.ext_iff]

/-- Every element of the merge accumulation comes from the cached list or
from the new list. -/
theorem mem_addNewActivities {x : CompletedActivity} :
    ∀ (B A : List CompletedActivity), x ∈ addNewActivities A B →
      x ∈ A ∨ x ∈ B := by
  intro B
  induction B with
  | nil => intro A h; exact Or.inl h
  | cons b rest ih =>
    intro A h
    by_cases hc : (A.any (fun existing =>
        existing.instance_id = b.instance_id &&
        existing.period = b.period)) = true
    · rw [addNewActivities, if_pos hc] at h
      rcases ih A h with h2 | h2
      · exact Or.inl h2
      · exact Or.inr (List.mem_cons_of_mem _ h2)
    · rw [addNewActivities, if_neg hc] at h
      rcases ih (A ++ [b]) h with h2 | h2
      · rcases List.mem_append.mp h2 with h3 | h3
        · exact Or.inl h3
        · rw [List.mem_singleton] at h3
          subst h3
          exact Or.inr (List.mem_cons_self _ _)
      · exact Or.inr (List.mem_cons_of_mem _ h2)

/-- An identity key occurs in the merge accumulation iff it occurs in the
cached list or in the new list. -/
theorem key_mem_addNewActivities (k : String × Int) :
    ∀ (B A : List CompletedActivity),
      ((∃ r ∈ addNewActivities A B, activityKey r = k) ↔
        (∃ a ∈ A, activityKey a = k) ∨ (∃ b ∈ B, activityKey b = k)) := by
  intro B
  induction B with
  | nil => intro A; simp [addNewActivities]
  | cons b rest ih =>
    intro A
    rw [List.exists_mem_cons_iff]
    by_cases hc : (A.any (fun existing =>
        existing.instance_id = b.instance_id &&
        existing.period = b.period)) = true
    · rw [addNewActivities, if_pos hc, ih A]
      obtain ⟨e, he, hkey⟩ := (any_key_eq A b).mp hc
      constructor
      · rintro (h | h)
        · exact Or.inl h
        · exact Or.inr (Or.inr h)
      · rintro (h | hbk | h)
        · exact Or.inl h
        · exact Or.inl ⟨e, he, hkey.trans hbk⟩
        · exact Or.inr h
    · rw [addNewActivities, if_neg hc, ih (A ++ [b])]
      constructor
      · rintro (⟨a, ha, hk⟩ | h)
        · rcases List.mem_append.mp ha with h3 | h3
          · exact Or.inl ⟨a, h3, hk⟩
          · rw [List.mem_singleton] at h3
            subst h3
            exact Or.inr (Or.inl hk)
        · exact Or.inr (Or.inr h)
      · rintro (⟨a, ha, hk⟩ | hbk | h)
        · exact Or.inl ⟨a, List.mem_append.mpr (Or.inl ha), hk⟩
        · exact Or.inl ⟨b, List.mem_append.mpr (Or.inr (List.mem_singleton.mpr rfl)), hbk⟩
        · exact Or.inr h

/-- The merge accumulation preserves freedom from duplicate identity keys. -/
theorem pairwise_key_addNewActivities :
    ∀ (B A : List CompletedActivity),
      A.Pairwise (fun x y => activityKey x ≠ activityKey y) →
      (addNewActivities A B).Pairwise
        (fun x y => activityKey x ≠ activityKey y) := by
  intro B
  induction B with
  | nil => intro A hA; exact hA
  | cons b rest ih =>
    intro A hA
    by_cases hc : (A.any (fun existing =>
        existing.instance_id = b.instance_id &&
        existing.period = b.period)) = true
    · rw [addNewActivities, if_pos hc]
      exact ih A hA
    · rw [addNewActivities, if_neg hc]
      apply ih
      rw [List.pairwise_append]
      refine ⟨hA, List.pairwise_singleton _ _, ?_⟩
      intro a ha b2 hb2 hkey
      rw [List.mem_singleton] at hb2
      exact hc ((any_key_eq A b).mpr ⟨a, ha, hb2 ▸ hkey⟩)

/-- The `periodDescLe` comparator is transitive. -/
theorem periodDescLe_trans (a b c : CompletedActivity)
    (h1 : periodDescLe a b = true) (h2 : periodDescLe b c = true) :
    periodDescLe a c = true := by
  simp only [periodDescLe, decide_eq_true_eq] at *
  omega

/-- The `periodDescLe` comparator is total. -/
theorem periodDescLe_total (a b : CompletedActivity) :
    (periodDescLe a b || periodDescLe b a) = true := by
  simp only [periodDescLe, Bool.or_eq_true, decide_eq_true_eq]
  omega

/-- The sort step is a permutation. -/
theorem sortByPeriodDesc_perm (l : List CompletedActivity) :
    (sortByPeriodDesc l).Perm l :=
  List.mergeSort_perm l periodDescLe

/-- The sort step sorts descending by `period`. -/
theorem sortByPeriodDesc_sorted (l : List CompletedActivity) :
    (sortByPeriodDesc l).Pairwise (fun a b => b.period ≤ a.period) := by
  have h := List.sorted_mergeSort periodDescLe_trans periodDescLe_total l
  exact h.imp (fun hab => by
    simpa [periodDescLe] using hab)

/-- C1: `merge_activities` on a profile whose cache holds `A = c.activities`
with new list `B` stores an activity list drawn from `A ∪ B`, containing an
(`instance_id`, `period`) identity key iff `A` or `B` contains it,
duplicate-free by identity whenever the cached list was, and sorted
descending by `period`; `last_updated` and the schema version are re-stamped.
On a profile with no cache entry it behaves exactly like `update_cache`, so
the stored list is exactly `B`. -/
theorem merge_activities_correct (m : CacheManager) (now : Int)
    (profile_id : String) (B : List CompletedActivity) :
    (∀ c, m.profiles profile_id = some c →
      ∃ entry,
        (m.merge_activities now profile_id B).profiles profile_id =
            some entry ∧
        entry.last_updated = now ∧
        entry.cache_version = CACHE_VERSION ∧
        (∀ x ∈ entry.activities, x ∈ c.activities ∨ x ∈ B) ∧
        (∀ k : String × Int,
          ((∃ r ∈ entry.activities, activityKey r = k) ↔
            (∃ a ∈ c.activities, activityKey a = k) ∨
            (∃ b ∈ B, activityKey b = k))) ∧
        (c.activities.Pairwise (fun x y => activityKey x ≠ activityKey y) →
          entry.activities.Pairwise
            (fun x y => activityKey x ≠ activityKey y)) ∧
        entry.activities.Pairwise (fun x y => y.period ≤ x.period)) ∧
    (m.profiles profile_id = none →
      m.merge_activities now profile_id B = m.update_cache now profile_id B ∧
      (m.merge_activities now profile_id B).profiles profile_id =
        some { activities := B, last_updated := now, profile_id := profile_id,
               cache_version := CACHE_VERSION }) := by
  constructor
  · intro c hc
    have hperm := sortByPeriodDesc_perm (addNewActivities c.activities B)
    refine ⟨{ activities := sortByPeriodDesc (addNewActivities c.activities B),
              last_updated := now, profile_id := c.profile_id,
              cache_version := CACHE_VERSION }, ?_, rfl, rfl, ?_, ?_, ?_, ?_⟩
    · simp [CacheManager.merge_activities, hc]
    · intro x hx
      exact mem_addNewActivities B c.activities (hperm.mem_iff.mp hx)
    · intro k
      rw [← key_mem_addNewActivities k B c.activities]
      constructor
      · rintro ⟨r, hr, hk⟩
        exact ⟨r, hperm.mem_iff.mp hr, hk⟩
      · rintro ⟨r, hr, hk⟩
        exact ⟨r, hperm.mem_iff.mpr hr, hk⟩
    · intro hA
      have hsymm : Symmetric
          (fun x y : CompletedActivity => activityKey x ≠ activityKey y) :=
        fun x y h hk => h hk.symm
      exact (hperm.pairwise_iff (fun h1 => hsymm h1)).mpr
        (pairwise_key_addNewActivities B c.activities hA)
    · exact sortByPeriodDesc_sorted _
  · intro hn
    constructor
    · simp [CacheManager.merge_activities, hn]
    · simp [CacheManager.merge_activities, hn, CacheManager.update_cache]

/-- C1 witness: merging `[actB, actA]` into a profile caching `[actA]` keeps
one representative per identity key — the keys present are exactly those of
`[actA] ∪ [actB, actA]` — and the stored list is sorted descending. -/
theorem merge_activities_correct_witness :
    ∃ entry,
      ((singletonManager actA).merge_activities 7 "p" [actB, actA]).profiles
          "p" = some entry ∧
      entry.last_updated = 7 ∧
      (∀ k : String × Int,
        ((∃ r ∈ entry.activities, activityKey r = k) ↔
          (∃ a ∈ [actA], activityKey a = k) ∨
          (∃ b ∈ [actB, actA], activityKey b = k))) ∧
      entry.activities.Pairwise (fun x y => y.period ≤ x.period) := by
  obtain ⟨entry, he, hlu, hcv, hsub, hkey, hdup, hsort⟩ :=
    (merge_activities_correct (singletonManager actA) 7 "p" [actB, actA]).1
      { activities := [actA], last_updated := 0, profile_id := "p",
        cache_version := CACHE_VERSION } (by decide)
  exact ⟨entry, he, hlu, hkey, hsort⟩

end Threepole
